import Mathlib

/-!
# Authentication & session-guard core of `nextjs-typescript-saas`

A shallow embedding of the repository's authentication slice: the identity
store (users, accounts, sessions), the session issuer, the session validator,
the route guard, the sign-out invalidator, and the protected admin page.

The repository itself contains only the configuration of the auth library
(`src/lib/auth.ts`) and the protected page (`AdminPage`); the session core
(issue / validate / sign-out / cascade delete) is the library behind that
configuration and is therefore modelled from the specification's component
contracts (sections 3, 4 and 8 of the spec).
-/

namespace SaaSAuth

/-- A user row of the identity store (spec section 3: id, email, name,
email-verified flag; timestamps and avatar are irrelevant to the claims). -/
structure User where
  id : Nat
  email : String
  name : String
  emailVerified : Bool
deriving Repr, DecidableEq

/-- An account row: a linkage between a `User` and one external identity
provider (spec section 3). -/
structure Account where
  id : Nat
  userId : Nat
  provider : String
  subject : String
deriving Repr, DecidableEq

/-- A session row: a live authorization grant with an opaque bearer token
and an expiry time (spec section 3). Times are abstracted as naturals. -/
structure Session where
  id : Nat
  userId : Nat
  token : String
  createdAt : Nat
  expiresAt : Nat
deriving Repr, DecidableEq

/-- The identity store: the durable user/account/session records, plus the
fresh-id counter and the nonce feeding the token generator. -/
structure Store where
  users : List User
  accounts : List Account
  sessions : List Session
  nextId : Nat
  nextNonce : Nat
deriving Repr, DecidableEq

def emptyStore : Store := ⟨[], [], [], 0, 0⟩

/-- Minimum length of a well-formed opaque session token. -/
def tokenMinLen : Nat := 24

/-- Modelled from the spec: the opaque, unguessable session token ("not
derivable from user id or time", section 4.1 step 3). The generator is
abstracted as an injective function of a store-held nonce; every generated
token has at least the expected minimum length. -/
def genToken (k : Nat) : String :=
  String.mk (List.replicate (tokenMinLen + k) 'x')

/-- Modelled from the spec: the "expected opaque-token shape" check of the
validator (section 4.2) — a token shorter than the expected length (in
particular the empty string) is malformed. -/
def wellFormedToken (t : String) : Bool :=
  tokenMinLen ≤ t.length

def findAccount (st : Store) (p sub : String) : Option Account :=
  st.accounts.find? (fun a => a.provider == p && a.subject == sub)

def findUserById (st : Store) (uid : Nat) : Option User :=
  st.users.find? (fun u => u.id == uid)

def findUserByEmail (st : Store) (e : String) : Option User :=
  st.users.find? (fun u => u.email == e)

def findSession (st : Store) (t : String) : Option Session :=
  st.sessions.find? (fun s => s.token == t)

/-- A verified external identity, the input of the session issuer
(spec section 6). -/
structure Identity where
  provider : String
  subject : String
  email : String
  name : String
deriving Repr, DecidableEq

/-- Configuration consumed by the session core: the identity-linking policy
for an email that already has a User (spec sections 4.1 and 9), and the
configured session lifetime (spec section 6). -/
structure CoreConfig where
  autoLink : Bool
  sessionLifetime : Nat
deriving Repr, DecidableEq

inductive IssueError where
  | identityConflict
  | storeInconsistent
deriving Repr, DecidableEq

/-- Modelled from the spec: step 3/4 of `issueSession` (section 4.1) —
generate a fresh unguessable token, compute the expiry from the configured
session lifetime, persist the session row. -/
def createSession (cfg : CoreConfig) (now : Nat) (st : Store) (uid : Nat) :
    Store × Session :=
  let sess : Session :=
    { id := st.nextId, userId := uid, token := genToken st.nextNonce,
      createdAt := now, expiresAt := now + cfg.sessionLifetime }
  ({ st with sessions := st.sessions ++ [sess],
             nextId := st.nextId + 1, nextNonce := st.nextNonce + 1 }, sess)

/-- Modelled from the spec: the Session Issuer contract
`issueSession(verifiedIdentity) -> Session | fails(IdentityConflict)`
(section 4.1). The repository delegates this to its auth library, so the
steps are taken from the spec: (1) look up Account by (provider, subject)
and resolve its owner; (2) else look up User by claimed email — link a new
Account when auto-linking is configured, otherwise refuse with
`IdentityConflict` (section 9's default policy); (3) else create a new User
and Account atomically; then generate and persist the Session.
`storeInconsistent` marks the dangling-reference branch that a well-formed
store never reaches. -/
def issueSession (cfg : CoreConfig) (now : Nat) (st : Store) (ident : Identity) :
    Except IssueError (Store × Session × User) :=
  match findAccount st ident.provider ident.subject with
  | some a =>
    match findUserById st a.userId with
    | some u => .ok ((createSession cfg now st a.userId).1,
                     (createSession cfg now st a.userId).2, u)
    | none => .error .storeInconsistent
  | none =>
    match findUserByEmail st ident.email with
    | some u =>
      if cfg.autoLink then
        let acct : Account :=
          { id := st.nextId, userId := u.id,
            provider := ident.provider, subject := ident.subject }
        let st1 : Store :=
          { st with accounts := st.accounts ++ [acct], nextId := st.nextId + 1 }
        .ok ((createSession cfg now st1 u.id).1,
             (createSession cfg now st1 u.id).2, u)
      else .error .identityConflict
    | none =>
      let u : User :=
        { id := st.nextId, email := ident.email, name := ident.name,
          emailVerified := true }
      let acct : Account :=
        { id := st.nextId + 1, userId := u.id,
          provider := ident.provider, subject := ident.subject }
      let st1 : Store :=
        { st with users := st.users ++ [u],
                  accounts := st.accounts ++ [acct],
                  nextId := st.nextId + 2 }
      .ok ((createSession cfg now st1 u.id).1,
           (createSession cfg now st1 u.id).2, u)

/-- Result of the Session Validator (spec section 4.2). -/
inductive ValidateResult where
  | active (u : User) (s : Session)
  | absent
  | expired
  | malformed
deriving Repr, DecidableEq

/-- Modelled from the spec: the Session Validator contract
`validate(token) -> Active(User, Session) | Absent | Expired | Malformed`
(section 4.2): reject malformed tokens before any storage lookup; `Absent`
when no session row matches; `Expired` once the time check fails; `Active`
resolves the session to its owning user. -/
def validate (st : Store) (now : Nat) (token : String) : ValidateResult :=
  if wellFormedToken token then
    match findSession st token with
    | none => .absent
    | some s =>
      if now < s.expiresAt then
        match findUserById st s.userId with
        | some u => .active u s
        | none => .absent
      else .expired
  else .malformed

/-- A request, carrying the session credential extracted from its cookie
(spec section 6: "credential carrier"). -/
structure Request where
  credential : Option String
deriving Repr, DecidableEq

inductive GuardResult where
  | allow (u : User)
  | deny (reason : String)
deriving Repr, DecidableEq

def extractToken (req : Request) : String :=
  req.credential.getD ""

/-- Modelled from the spec: the Route Guard contract (section 4.3) —
extract the token from the credential carrier, call the Validator, map
`Active` to `Allow` and anything else to `Deny("unauthenticated")`. -/
def guard (st : Store) (now : Nat) (req : Request) : GuardResult :=
  match validate st now (extractToken req) with
  | .active u _ => .allow u
  | _ => .deny "unauthenticated"

inductive PageResult where
  | redirectTo (path : String)
  | render (content : String)
deriving Repr, DecidableEq

/-- Modelled from the spec: a protected-resource handler (section 4.3) —
`Deny` is a redirect to the authentication entry point, never a partial
render. The rendered content mirrors `AdminPage`. -/
def protectedPage (st : Store) (now : Nat) (req : Request) : PageResult :=
  match guard st now req with
  | .allow u => .render ("Welcome " ++ u.name ++ "!")
  | .deny _ => .redirectTo "/auth/"

inductive SignOutResult where
  | ok
deriving Repr, DecidableEq

/-- Modelled from the spec: the Sign-Out Invalidator contract
`signOut(token) -> Ok | Ok` (section 4.4) — delete the matching session row
if present; always report success. -/
def signOut (st : Store) (token : String) : Store × SignOutResult :=
  ({ st with sessions := st.sessions.filter (fun s => s.token != token) }, .ok)

/-- Modelled from the spec: deleting a User cascades to its Accounts and
Sessions in one atomic step (spec sections 3 and 9: `ON DELETE CASCADE`). -/
def deleteUser (st : Store) (uid : Nat) : Store :=
  { st with users := st.users.filter (fun u => u.id != uid),
            accounts := st.accounts.filter (fun a => a.userId != uid),
            sessions := st.sessions.filter (fun s => s.userId != uid) }

/-- What the framework's `getSession` hands the admin page: the session row
and its user; the page treats the user field as possibly absent. -/
structure SessionData where
  user : Option User
  session : Session
deriving Repr, DecidableEq

/-- The protected admin page, embedded from the source (`AdminPage`):
`if (!session?.user) return redirect("/auth/")`, otherwise render the
welcome view for `session.user.name`. -/
def AdminPage (s : Option SessionData) : PageResult :=
  match s with
  | none => .redirectTo "/auth/"
  | some sd =>
    match sd.user with
    | none => .redirectTo "/auth/"
    | some u => .render ("Welcome " ++ u.name ++ "!")

/-- One configured social provider of `src/lib/auth.ts` (client id / secret
are the names of the environment variables the source reads). -/
structure SocialProvider where
  name : String
  clientId : String
  clientSecret : String
deriving Repr, DecidableEq

/-- The shape of the `betterAuth({...})` configuration in
`src/lib/auth.ts`. -/
structure BetterAuthConfig where
  emailAndPasswordEnabled : Bool
  socialProviders : List SocialProvider
  baseURL : String
  basePath : String
deriving Repr, DecidableEq

/-- Embedded from the source (`src/lib/auth.ts`): email/password sign-in is
disabled and exactly three social providers are configured. -/
def authConfig : BetterAuthConfig :=
  { emailAndPasswordEnabled := false,
    socialProviders :=
      [⟨"google", "AUTH_GOOGLE_ID", "AUTH_GOOGLE_SECRET"⟩,
       ⟨"apple", "AUTH_APPLE_ID", "AUTH_APPLE_SECRET"⟩,
       ⟨"twitter", "AUTH_TWITTER_ID", "AUTH_TWITTER_SECRET"⟩],
    baseURL := "http://localhost:3000",
    basePath := "/api/auth" }

def providerEnabled (bc : BetterAuthConfig) (p : String) : Bool :=
  bc.socialProviders.any (fun sp => sp.name == p)

/-- Whether the configured auth library accepts a sign-in attempt through
this identity's provider: either a configured social provider, or the
email/password flow (modelled as provider `"credential"`) when that flow is
enabled. -/
def identityAllowed (bc : BetterAuthConfig) (ident : Identity) : Bool :=
  providerEnabled bc ident.provider ||
    (ident.provider == "credential" && bc.emailAndPasswordEnabled)

/-- The stores reachable from the empty store through the configured auth
surface: issuing a session for an identity whose provider the configuration
accepts, signing out a token, and (administratively) deleting a user. -/
inductive Reachable (cfg : CoreConfig) (bc : BetterAuthConfig) : Store → Prop where
  | init : Reachable cfg bc emptyStore
  | issue {st st' now ident sess u} : Reachable cfg bc st →
      identityAllowed bc ident = true →
      issueSession cfg now st ident = .ok (st', sess, u) →
      Reachable cfg bc st'
  | invalidate {st tok} : Reachable cfg bc st →
      Reachable cfg bc (signOut st tok).1
  | remove {st uid} : Reachable cfg bc st →
      Reachable cfg bc (deleteUser st uid)

/-- Store well-formedness: row ids are below the fresh-id counter, accounts
and sessions reference existing users, every session token was produced by
the generator from a nonce below the current one, and session tokens are
pairwise distinct. -/
abbrev WF (st : Store) : Prop :=
  (∀ u ∈ st.users, u.id < st.nextId) ∧
  (∀ a ∈ st.accounts, ∃ u ∈ st.users, u.id = a.userId) ∧
  (∀ s ∈ st.sessions, ∃ u ∈ st.users, u.id = s.userId) ∧
  (∀ s ∈ st.sessions, s.token ∈ (List.range st.nextNonce).map genToken) ∧
  (st.sessions.map Session.token).Nodup

/-! ## Helper lemmas -/

theorem genToken_length (k : Nat) : (genToken k).length = tokenMinLen + k := by
  simp [genToken, String.length]

theorem genToken_inj {j k : Nat} (h : genToken j = genToken k) : j = k := by
  have hl := congrArg String.length h
  simpa [genToken_length] using hl

theorem wellFormedToken_genToken (k : Nat) :
    wellFormedToken (genToken k) = true := by
  simp [wellFormedToken, genToken_length]

theorem find?_append_of_left_none {α} (p : α → Bool) {l₁ : List α} (l₂ : List α)
    (h : ∀ x ∈ l₁, p x = false) : (l₁ ++ l₂).find? p = l₂.find? p := by
  induction l₁ with
  | nil => rfl
  | cons a l ih =>
    rw [List.cons_append, List.find?_cons_of_neg]
    · exact ih (fun x hx => h x (List.mem_cons_of_mem a hx))
    · simp [h a (List.mem_cons_self a l)]

theorem find?_token_mem {l : List Session} {s : Session} (hs : s ∈ l)
    (hnd : (l.map Session.token).Nodup) :
    l.find? (fun x => x.token == s.token) = some s := by
  induction l with
  | nil => cases hs
  | cons a l ih =>
    rw [List.map_cons] at hnd
    have hnd' := List.nodup_cons.mp hnd
    rcases List.mem_cons.mp hs with rfl | hmem
    · exact List.find?_cons_of_pos _ (by simp)
    · rw [List.find?_cons_of_neg]
      · exact ih hmem hnd'.2
      · have hne : a.token ≠ s.token := by
          intro he
          exact hnd'.1 (he ▸ List.mem_map_of_mem Session.token hmem)
        simp [hne]

/-- In a well-formed store, no stored session carries the token the
generator will produce next. -/
theorem stored_token_ne_next {st : Store} (hwf : WF st) {s : Session}
    (hs : s ∈ st.sessions) : (s.token == genToken st.nextNonce) = false := by
  rcases hwf.2.2.2.1 s hs with hmem
  rcases List.mem_map.mp hmem with ⟨k, hk, hEq⟩
  have hklt : k < st.nextNonce := List.mem_range.mp hk
  have : s.token ≠ genToken st.nextNonce := by
    intro he
    exact absurd (genToken_inj (hEq ▸ he)) (Nat.ne_of_lt hklt)
  simp [this]

/-! ## Concrete stores for witnesses -/

def demoUser : User := ⟨1, "a@x.com", "A", true⟩

def demoSession : Session := ⟨2, 1, genToken 0, 0, 100⟩

def demoStore : Store := ⟨[demoUser], [], [demoSession], 3, 1⟩

def conflictStore : Store := ⟨[demoUser], [⟨5, 1, "apple", "ap-9"⟩], [], 6, 0⟩

/-! ## Claim theorems -/

/-- C8: a token that does not match the expected opaque-token shape (the
empty string, a too-short token) is rejected as `Malformed`, and the
outcome is decided before — and so independently of — any identity-store
access: it is the same for every store and every time. -/
theorem validate_malformed_before_lookup (st st₂ : Store) (now now₂ : Nat)
    (t : String) (h : wellFormedToken t = false) :
    validate st now t = .malformed ∧ validate st now t = validate st₂ now₂ t := by
  constructor
  · simp [validate, h]
  · simp [validate, h]

theorem validate_malformed_before_lookup_witness :
    validate demoStore 5 "" = .malformed ∧
    validate demoStore 5 "" = validate emptyStore 0 "" :=
  validate_malformed_before_lookup demoStore emptyStore 5 0 "" (by decide)

/-- C3 counterexample: as stated, the claim fails on the malformed token
`""` — sign-out still reports success, but a subsequent `validate ""`
returns `Malformed`, not `Absent`. -/
theorem signOut_malformed_counterexample :
    (signOut emptyStore "").2 = .ok ∧
    validate (signOut emptyStore "").1 0 "" ≠ .absent := by decide

/-- C3 (amended): `signOut` always reports `Ok` whether or not a session row
matches, a second `signOut` on the same token still reports `Ok`, and after
sign-out `validate` on that token returns `Absent` for every token of the
expected opaque-token shape (a malformed token still validates as
`Malformed`). -/
theorem signOut_idempotent_absent (st : Store) (now : Nat) (t : String)
    (h : wellFormedToken t = true) :
    (signOut st t).2 = .ok ∧
    validate (signOut st t).1 now t = .absent ∧
    (signOut (signOut st t).1 t).2 = .ok := by
  refine ⟨rfl, ?_, rfl⟩
  have hnone : findSession (signOut st t).1 t = none := by
    unfold findSession signOut
    apply List.find?_eq_none.mpr
    intro s hsmem
    have h2 := (List.mem_filter.mp hsmem).2
    simp only [bne_iff_ne, ne_eq] at h2
    simp [h2]
  simp [validate, h, hnone]

theorem signOut_idempotent_absent_witness :
    (signOut demoStore (genToken 0)).2 = .ok ∧
    validate (signOut demoStore (genToken 0)).1 0 (genToken 0) = .absent ∧
    (signOut (signOut demoStore (genToken 0)).1 (genToken 0)).2 = .ok :=
  signOut_idempotent_absent demoStore 0 (genToken 0) (by decide)

/-- C4: the route guard maps an `Active` validator result to `Allow` for
the resolved user and every other validator result (`Absent`, `Expired`,
`Malformed`) to `Deny("unauthenticated")`; a protected-resource handler on
`Deny` redirects to the authentication entry point and never renders the
protected content. -/
theorem guard_validator_mapping (st : Store) (now : Nat) (req : Request) :
    (∀ u s, validate st now (extractToken req) = .active u s →
        guard st now req = .allow u) ∧
    (validate st now (extractToken req) = .absent →
        guard st now req = .deny "unauthenticated") ∧
    (validate st now (extractToken req) = .expired →
        guard st now req = .deny "unauthenticated") ∧
    (validate st now (extractToken req) = .malformed →
        guard st now req = .deny "unauthenticated") ∧
    (∀ r, guard st now req = .deny r →
        protectedPage st now req = .redirectTo "/auth/") := by
  refine ⟨?_, ?_, ?_, ?_, ?_⟩
  · intro u s h; simp [guard, h]
  · intro h; simp [guard, h]
  · intro h; simp [guard, h]
  · intro h; simp [guard, h]
  · intro r h; simp [protectedPage, h]

theorem guard_validator_mapping_witness :
    guard emptyStore 0 ⟨none⟩ = .deny "unauthenticated" ∧
    protectedPage emptyStore 0 ⟨none⟩ = .redirectTo "/auth/" :=
  ⟨(guard_validator_mapping emptyStore 0 ⟨none⟩).2.2.2.1 (by decide),
   (guard_validator_mapping emptyStore 0 ⟨none⟩).2.2.2.2 "unauthenticated"
     ((guard_validator_mapping emptyStore 0 ⟨none⟩).2.2.2.1 (by decide))⟩

/-- C10: the admin page is fail-closed — when `getSession` yields nothing,
or yields a session record whose user field is absent, the page redirects
to `"/auth/"` and renders none of the protected content. -/
theorem adminPage_fail_closed :
    AdminPage none = .redirectTo "/auth/" ∧
    ∀ sd : SessionData, sd.user = none →
      AdminPage (some sd) = .redirectTo "/auth/" := by
  refine ⟨rfl, ?_⟩
  intro sd h
  simp [AdminPage, h]

theorem adminPage_fail_closed_witness :
    AdminPage (some ⟨none, demoSession⟩) = .redirectTo "/auth/" :=
  adminPage_fail_closed.2 ⟨none, demoSession⟩ rfl

/-- C6: deleting a user removes, in the same atomic step, every account and
every session whose owning user id references it — afterwards no account or
session referencing that user id remains, and the user itself is no longer
retrievable. -/
theorem deleteUser_cascade (st : Store) (uid : Nat) :
    ((deleteUser st uid).accounts.all (fun a => a.userId != uid)) = true ∧
    ((deleteUser st uid).sessions.all (fun s => s.userId != uid)) = true ∧
    findUserById (deleteUser st uid) uid = none := by
  refine ⟨?_, ?_, ?_⟩
  · apply List.all_eq_true.mpr
    intro a ha
    simp only [deleteUser] at ha
    exact (List.mem_filter.mp ha).2
  · apply List.all_eq_true.mpr
    intro s hs
    simp only [deleteUser] at hs
    exact (List.mem_filter.mp hs).2
  · apply List.find?_eq_none.mpr
    intro u hu
    simp only [findUserById, deleteUser] at hu ⊢
    have h2 := (List.mem_filter.mp hu).2
    simp only [bne_iff_ne, ne_eq] at h2
    simp [h2]

/-- C7: when the claimed email already belongs to a user and the provider
is not configured for auto-linking, issuance is refused with
`IdentityConflict` — no new user, account or session row is created (the
issuer returns no store at all on failure). -/
theorem issueSession_identityConflict (cfg : CoreConfig) (now : Nat)
    (st : Store) (ident : Identity) (u : User)
    (hauto : cfg.autoLink = false)
    (hA : findAccount st ident.provider ident.subject = none)
    (hU : findUserByEmail st ident.email = some u) :
    issueSession cfg now st ident = .error .identityConflict ∧
    ∀ st' sess u', issueSession cfg now st ident ≠ .ok (st', sess, u') := by
  have h : issueSession cfg now st ident = .error .identityConflict := by
    simp [issueSession, hA, hU, hauto]
  refine ⟨h, fun st' sess u' hc => ?_⟩
  rw [h] at hc
  cases hc

theorem issueSession_identityConflict_witness :
    issueSession ⟨false, 100⟩ 0 conflictStore ⟨"google", "g-123", "a@x.com", "A"⟩ =
      .error .identityConflict :=
  (issueSession_identityConflict ⟨false, 100⟩ 0 conflictStore
      ⟨"google", "g-123", "a@x.com", "A"⟩ demoUser rfl (by decide) (by decide)).1

/-- C2: for an existing session row in a well-formed store, `validate` on
its token yields `Active` (resolving the owning user) whenever
`now < expiry` and `Expired` once `expiry ≤ now`; one of the two always
applies, the owning user is always resolvable, and both `Expired` and
`Absent` are treated identically by the authorization guard. -/
theorem validate_active_expired_dichotomy (st : Store) (now : Nat)
    (s : Session) (hwf : WF st) (hs : s ∈ st.sessions) :
    ((findUserById st s.userId).isSome = true) ∧
    (∀ u, findUserById st s.userId = some u → now < s.expiresAt →
        validate st now s.token = .active u s) ∧
    (s.expiresAt ≤ now → validate st now s.token = .expired) ∧
    (now < s.expiresAt ∨ s.expiresAt ≤ now) ∧
    (∀ t, validate st now t = .expired →
        guard st now ⟨some t⟩ = .deny "unauthenticated") ∧
    (∀ t, validate st now t = .absent →
        guard st now ⟨some t⟩ = .deny "unauthenticated") := by
  have hwft : wellFormedToken s.token = true := by
    rcases List.mem_map.mp (hwf.2.2.2.1 s hs) with ⟨k, _, hEq⟩
    rw [← hEq]
    exact wellFormedToken_genToken k
  have hfind : findSession st s.token = some s :=
    find?_token_mem hs hwf.2.2.2.2
  refine ⟨?_, ?_, ?_, Nat.lt_or_ge now s.expiresAt, ?_, ?_⟩
  · rcases hwf.2.2.1 s hs with ⟨u, hu, hid⟩
    rw [Option.isSome_iff_exists]
    rcases hx : findUserById st s.userId with _ | v
    · exact absurd (List.find?_eq_none.mp hx u hu) (by simp [hid])
    · exact ⟨v, rfl⟩
  · intro u hu hlt
    simp [validate, hwft, hfind, hlt, hu]
  · intro hle
    simp [validate, hwft, hfind, Nat.not_lt.mpr hle]
  · intro t h
    simp [guard, extractToken, h]
  · intro t h
    simp [guard, extractToken, h]

theorem validate_active_expired_dichotomy_witness :
    validate demoStore 0 (genToken 0) = .active demoUser demoSession ∧
    validate demoStore 200 (genToken 0) = .expired ∧
    guard demoStore 200 ⟨some (genToken 0)⟩ = .deny "unauthenticated" :=
  ⟨(validate_active_expired_dichotomy demoStore 0 demoSession (by decide)
      (by decide)).2.1 demoUser (by decide) (by decide),
   (validate_active_expired_dichotomy demoStore 200 demoSession (by decide)
      (by decide)).2.2.1 (by decide),
   (validate_active_expired_dichotomy demoStore 200 demoSession (by decide)
      (by decide)).2.2.2.2.1 (genToken 0)
     ((validate_active_expired_dichotomy demoStore 200 demoSession (by decide)
        (by decide)).2.2.1 (by decide))⟩

/-- C1: for a verified identity whose (provider, subject) pair has never
been seen and whose email matches no user, `issueSession` creates exactly
one new user and exactly one new account in the same atomic store update,
and returns a session whose token validates as `Active`, resolving to that
newly created user. -/
theorem issueSession_fresh_creates (cfg : CoreConfig) (now : Nat) (st : Store)
    (ident : Identity) (hwf : WF st)
    (hA : findAccount st ident.provider ident.subject = none)
    (hU : findUserByEmail st ident.email = none)
    (hL : 0 < cfg.sessionLifetime) :
    ∃ st' sess u a,
      issueSession cfg now st ident = .ok (st', sess, u) ∧
      st'.users = st.users ++ [u] ∧
      st'.accounts = st.accounts ++ [a] ∧
      a.userId = u.id ∧ sess.userId = u.id ∧
      u.email = ident.email ∧ u.name = ident.name ∧
      a.provider = ident.provider ∧ a.subject = ident.subject ∧
      validate st' now sess.token = .active u sess := by
  refine ⟨⟨st.users ++ [⟨st.nextId, ident.email, ident.name, true⟩],
           st.accounts ++ [⟨st.nextId + 1, st.nextId, ident.provider, ident.subject⟩],
           st.sessions ++ [⟨st.nextId + 2, st.nextId, genToken st.nextNonce, now,
             now + cfg.sessionLifetime⟩],
           st.nextId + 3, st.nextNonce + 1⟩,
          ⟨st.nextId + 2, st.nextId, genToken st.nextNonce, now,
             now + cfg.sessionLifetime⟩,
          ⟨st.nextId, ident.email, ident.name, true⟩,
          ⟨st.nextId + 1, st.nextId, ident.provider, ident.subject⟩,
          ?_, rfl, rfl, rfl, rfl, rfl, rfl, rfl, rfl, ?_⟩
  · simp [issueSession, hA, hU, createSession]
  · have hwft : wellFormedToken (genToken st.nextNonce) = true :=
      wellFormedToken_genToken _
    have hfs : (st.sessions ++ [(⟨st.nextId + 2, st.nextId,
          genToken st.nextNonce, now, now + cfg.sessionLifetime⟩ : Session)]).find?
          (fun x => x.token == genToken st.nextNonce) =
        some ⟨st.nextId + 2, st.nextId, genToken st.nextNonce, now,
          now + cfg.sessionLifetime⟩ := by
      rw [find?_append_of_left_none _ _ (fun x hx => stored_token_ne_next hwf hx)]
      exact List.find?_cons_of_pos _ (by simp)
    have hfu : (st.users ++ [(⟨st.nextId, ident.email, ident.name, true⟩ : User)]).find?
          (fun x => x.id == st.nextId) =
        some ⟨st.nextId, ident.email, ident.name, true⟩ := by
      rw [find?_append_of_left_none _ _ ?_]
      · exact List.find?_cons_of_pos _ (by simp)
      · intro x hx
        simp [Nat.ne_of_lt (hwf.1 x hx)]
    have hnow : now < now + cfg.sessionLifetime := Nat.lt_add_of_pos_right hL
    simp [validate, findSession, findUserById, hwft, hfs, hfu, hnow]

theorem issueSession_fresh_creates_witness :
    ∃ st' sess u a,
      issueSession ⟨false, 100⟩ 0 emptyStore ⟨"google", "g-123", "a@x.com", "A"⟩ =
        .ok (st', sess, u) ∧
      st'.users = emptyStore.users ++ [u] ∧
      st'.accounts = emptyStore.accounts ++ [a] ∧
      a.userId = u.id ∧ sess.userId = u.id ∧
      u.email = Identity.email ⟨"google", "g-123", "a@x.com", "A"⟩ ∧
      u.name = Identity.name ⟨"google", "g-123", "a@x.com", "A"⟩ ∧
      a.provider = Identity.provider ⟨"google", "g-123", "a@x.com", "A"⟩ ∧
      a.subject = Identity.subject ⟨"google", "g-123", "a@x.com", "A"⟩ ∧
      validate st' 0 sess.token = .active u sess :=
  issueSession_fresh_creates ⟨false, 100⟩ 0 emptyStore
    ⟨"google", "g-123", "a@x.com", "A"⟩ (by decide) (by decide) (by decide)
    (by decide)

/-- The explicit result of the fresh-identity branch of `issueSession`. -/
theorem issueSession_fresh_eq (cfg : CoreConfig) (now : Nat) (st : Store)
    (ident : Identity)
    (hA : findAccount st ident.provider ident.subject = none)
    (hU : findUserByEmail st ident.email = none) :
    issueSession cfg now st ident = .ok
      (⟨st.users ++ [⟨st.nextId, ident.email, ident.name, true⟩],
        st.accounts ++ [⟨st.nextId + 1, st.nextId, ident.provider, ident.subject⟩],
        st.sessions ++ [⟨st.nextId + 2, st.nextId, genToken st.nextNonce, now,
          now + cfg.sessionLifetime⟩],
        st.nextId + 3, st.nextNonce + 1⟩,
       ⟨st.nextId + 2, st.nextId, genToken st.nextNonce, now,
          now + cfg.sessionLifetime⟩,
       ⟨st.nextId, ident.email, ident.name, true⟩) := by
  simp [issueSession, hA, hU, createSession]

/-- C5: when the (provider, subject) pair already has an account,
`issueSession` creates zero new users and zero new accounts and resolves to
the existing owning user; and issuing the same previously unseen identity
twice in sequence, with a sign-out in between, yields the same user both
times but two distinct session tokens. -/
theorem issueSession_existing_account (cfg : CoreConfig) :
    (∀ now st ident a u,
       findAccount st ident.provider ident.subject = some a →
       findUserById st a.userId = some u →
       ∃ st' sess,
         issueSession cfg now st ident = .ok (st', sess, u) ∧
         st'.users = st.users ∧ st'.accounts = st.accounts ∧
         sess.userId = a.userId) ∧
    (∀ now₁ now₂ st ident, WF st →
       findAccount st ident.provider ident.subject = none →
       findUserByEmail st ident.email = none →
       ∃ st₁ s₁ u₁ st₂ s₂ u₂,
         issueSession cfg now₁ st ident = .ok (st₁, s₁, u₁) ∧
         issueSession cfg now₂ (signOut st₁ s₁.token).1 ident = .ok (st₂, s₂, u₂) ∧
         u₂ = u₁ ∧ s₂.token ≠ s₁.token) := by
  constructor
  · intro now st ident a u hA hU
    refine ⟨(createSession cfg now st a.userId).1,
            (createSession cfg now st a.userId).2, ?_, rfl, rfl, rfl⟩
    simp [issueSession, hA, hU]
  · intro now₁ now₂ st ident hwf hA hU
    have hA2 : findAccount (signOut
          (⟨st.users ++ [⟨st.nextId, ident.email, ident.name, true⟩],
            st.accounts ++ [⟨st.nextId + 1, st.nextId, ident.provider, ident.subject⟩],
            st.sessions ++ [⟨st.nextId + 2, st.nextId, genToken st.nextNonce, now₁,
              now₁ + cfg.sessionLifetime⟩],
            st.nextId + 3, st.nextNonce + 1⟩ : Store)
          (genToken st.nextNonce)).1 ident.provider ident.subject =
        some ⟨st.nextId + 1, st.nextId, ident.provider, ident.subject⟩ := by
      show (st.accounts ++
          [(⟨st.nextId + 1, st.nextId, ident.provider, ident.subject⟩ : Account)]).find?
          (fun a => a.provider == ident.provider && a.subject == ident.subject) = _
      rw [find?_append_of_left_none _ _ ?_]
      · exact List.find?_cons_of_pos _ (by simp)
      · intro x hx
        have h' := List.find?_eq_none.mp hA x hx
        simpa using h'
    have hU2 : findUserById (signOut
          (⟨st.users ++ [⟨st.nextId, ident.email, ident.name, true⟩],
            st.accounts ++ [⟨st.nextId + 1, st.nextId, ident.provider, ident.subject⟩],
            st.sessions ++ [⟨st.nextId + 2, st.nextId, genToken st.nextNonce, now₁,
              now₁ + cfg.sessionLifetime⟩],
            st.nextId + 3, st.nextNonce + 1⟩ : Store)
          (genToken st.nextNonce)).1 st.nextId =
        some ⟨st.nextId, ident.email, ident.name, true⟩ := by
      show (st.users ++ [(⟨st.nextId, ident.email, ident.name, true⟩ : User)]).find?
          (fun x => x.id == st.nextId) = _
      rw [find?_append_of_left_none _ _ ?_]
      · exact List.find?_cons_of_pos _ (by simp)
      · intro x hx
        simp [Nat.ne_of_lt (hwf.1 x hx)]
    have h1 := issueSession_fresh_eq cfg now₁ st ident hA hU
    have h2 : issueSession cfg now₂
        (signOut (⟨st.users ++ [⟨st.nextId, ident.email, ident.name, true⟩],
            st.accounts ++ [⟨st.nextId + 1, st.nextId, ident.provider, ident.subject⟩],
            st.sessions ++ [⟨st.nextId + 2, st.nextId, genToken st.nextNonce, now₁,
              now₁ + cfg.sessionLifetime⟩],
            st.nextId + 3, st.nextNonce + 1⟩ : Store)
          (genToken st.nextNonce)).1 ident =
        .ok ((createSession cfg now₂
            (signOut (⟨st.users ++ [⟨st.nextId, ident.email, ident.name, true⟩],
                st.accounts ++ [⟨st.nextId + 1, st.nextId, ident.provider, ident.subject⟩],
                st.sessions ++ [⟨st.nextId + 2, st.nextId, genToken st.nextNonce, now₁,
                  now₁ + cfg.sessionLifetime⟩],
                st.nextId + 3, st.nextNonce + 1⟩ : Store)
              (genToken st.nextNonce)).1 st.nextId).1,
           (createSession cfg now₂
            (signOut (⟨st.users ++ [⟨st.nextId, ident.email, ident.name, true⟩],
                st.accounts ++ [⟨st.nextId + 1, st.nextId, ident.provider, ident.subject⟩],
                st.sessions ++ [⟨st.nextId + 2, st.nextId, genToken st.nextNonce, now₁,
                  now₁ + cfg.sessionLifetime⟩],
                st.nextId + 3, st.nextNonce + 1⟩ : Store)
              (genToken st.nextNonce)).1 st.nextId).2,
           ⟨st.nextId, ident.email, ident.name, true⟩) := by
      simp [issueSession, hA2, hU2]
    refine ⟨_, _, _, _, _, _, h1, h2, rfl, ?_⟩
    show genToken (st.nextNonce + 1) ≠ genToken st.nextNonce
    intro h
    exact Nat.succ_ne_self st.nextNonce (genToken_inj h)

theorem issueSession_existing_account_witness :
    ∃ st₁ s₁ u₁ st₂ s₂ u₂,
      issueSession ⟨false, 100⟩ 0 emptyStore
        ⟨"google", "g-123", "a@x.com", "A"⟩ = .ok (st₁, s₁, u₁) ∧
      issueSession ⟨false, 100⟩ 5 (signOut st₁ s₁.token).1
        ⟨"google", "g-123", "a@x.com", "A"⟩ = .ok (st₂, s₂, u₂) ∧
      u₂ = u₁ ∧ s₂.token ≠ s₁.token :=
  (issueSession_existing_account ⟨false, 100⟩).2 0 5 emptyStore
    ⟨"google", "g-123", "a@x.com", "A"⟩ (by decide) (by decide) (by decide)

/-- A provider the configuration of `src/lib/auth.ts` accepts. -/
def allowedProvider (p : String) : Prop :=
  p = "google" ∨ p = "apple" ∨ p = "twitter"

theorem identityAllowed_authConfig {ident : Identity}
    (h : identityAllowed authConfig ident = true) :
    allowedProvider ident.provider := by
  simp [identityAllowed, providerEnabled, authConfig] at h
  unfold allowedProvider
  rcases h with h | h | h <;> simp [← h]

/-- Invariant of every reachable store under the source's configuration:
all linked accounts use an allowed social provider, and every session's
owner has such an account. -/
def socialOnly (st : Store) : Prop :=
  (∀ a ∈ st.accounts, allowedProvider a.provider) ∧
  (∀ s ∈ st.sessions, ∃ a ∈ st.accounts,
      a.userId = s.userId ∧ allowedProvider a.provider)

theorem reachable_socialOnly (cfg : CoreConfig) :
    ∀ st, Reachable cfg authConfig st → socialOnly st := by
  intro st h
  induction h with
  | init =>
    exact ⟨(fun a ha => nomatch ha), (fun s hs => nomatch hs)⟩
  | @issue st0 st' now ident sess u hreach hallow hok ih =>
    obtain ⟨ihA, ihS⟩ := ih
    have hprov := identityAllowed_authConfig hallow
    rcases hfa : findAccount st0 ident.provider ident.subject with _ | a
    · rcases hfu : findUserByEmail st0 ident.email with _ | u0
      · rw [issueSession_fresh_eq cfg now st0 ident hfa hfu] at hok
        simp only [Except.ok.injEq, Prod.mk.injEq] at hok
        obtain ⟨h1, h2, h3⟩ := hok
        subst h1
        constructor
        · intro a ha
          rcases List.mem_append.mp ha with hold | hnew
          · exact ihA a hold
          · rcases List.mem_singleton.mp hnew with rfl
            exact hprov
        · intro s hs
          rcases List.mem_append.mp hs with hold | hnew
          · obtain ⟨a, hamem, haid, hap⟩ := ihS s hold
            exact ⟨a, List.mem_append_left _ hamem, haid, hap⟩
          · rcases List.mem_singleton.mp hnew with rfl
            exact ⟨⟨st0.nextId + 1, st0.nextId, ident.provider, ident.subject⟩,
                   List.mem_append_right _ (List.mem_singleton.mpr rfl),
                   rfl, hprov⟩
      · simp only [issueSession, hfa, hfu] at hok
        rcases hal : cfg.autoLink with _ | _
        · rw [hal] at hok
          simp at hok
        · rw [hal] at hok
          simp only [if_true, Except.ok.injEq, Prod.mk.injEq] at hok
          obtain ⟨h1, h2, h3⟩ := hok
          subst h1
          constructor
          · intro a ha
            simp only [createSession] at ha
            rcases List.mem_append.mp ha with hold | hnew
            · exact ihA a hold
            · rcases List.mem_singleton.mp hnew with rfl
              exact hprov
          · intro s hs
            simp only [createSession] at hs ⊢
            rcases List.mem_append.mp hs with hold | hnew
            · obtain ⟨a, hamem, haid, hap⟩ := ihS s hold
              exact ⟨a, List.mem_append_left _ hamem, haid, hap⟩
            · rcases List.mem_singleton.mp hnew with rfl
              exact ⟨⟨st0.nextId, u0.id, ident.provider, ident.subject⟩,
                     List.mem_append_right _ (List.mem_singleton.mpr rfl),
                     rfl, hprov⟩
    · rcases hfu : findUserById st0 a.userId with _ | u0
      · simp only [issueSession, hfa, hfu] at hok
        exact Except.noConfusion hok
      · simp only [issueSession, hfa, hfu, Except.ok.injEq, Prod.mk.injEq] at hok
        obtain ⟨h1, h2, h3⟩ := hok
        subst h1
        have hamem : a ∈ st0.accounts := List.mem_of_find?_eq_some hfa
        constructor
        · intro a' ha'
          simp only [createSession] at ha'
          exact ihA a' ha'
        · intro s hs
          simp only [createSession] at hs ⊢
          rcases List.mem_append.mp hs with hold | hnew
          · exact ihS s hold
          · rcases List.mem_singleton.mp hnew with rfl
            exact ⟨a, hamem, rfl, ihA a hamem⟩
  | @invalidate st0 tok hreach ih =>
    obtain ⟨ihA, ihS⟩ := ih
    constructor
    · intro a ha
      simp only [signOut] at ha
      exact ihA a ha
    · intro s hs
      simp only [signOut] at hs ⊢
      exact ihS s (List.mem_of_mem_filter hs)
  | @remove st0 uid hreach ih =>
    obtain ⟨ihA, ihS⟩ := ih
    constructor
    · intro a ha
      simp only [deleteUser] at ha
      exact ihA a (List.mem_filter.mp ha).1
    · intro s hs
      simp only [deleteUser] at hs ⊢
      obtain ⟨hs0, hsne⟩ := List.mem_filter.mp hs
      obtain ⟨a, hamem, haid, hap⟩ := ihS s hs0
      refine ⟨a, List.mem_filter.mpr ⟨hamem, ?_⟩, haid, hap⟩
      rw [haid]
      exact hsne

/-- C9: under the source's configuration — email/password disabled,
exactly the social providers google, apple and twitter — every account in
every reachable store belongs to one of those three providers, none is an
email/password (`"credential"`) account, and every session's owner is
linked through one of the three; so no reachable state holds a session
established from an email/password credential. -/
theorem reachable_social_only (cfg : CoreConfig) (st : Store)
    (h : Reachable cfg authConfig st) :
    (st.accounts.all (fun a => a.provider == "google" ||
        a.provider == "apple" || a.provider == "twitter")) = true ∧
    (st.accounts.all (fun a => a.provider != "credential")) = true ∧
    (st.sessions.all (fun s => st.accounts.any (fun a =>
        a.userId == s.userId && (a.provider == "google" ||
          a.provider == "apple" || a.provider == "twitter")))) = true := by
  obtain ⟨hA, hS⟩ := reachable_socialOnly cfg st h
  refine ⟨?_, ?_, ?_⟩
  · apply List.all_eq_true.mpr
    intro a ha
    rcases hA a ha with h1 | h1 | h1 <;> simp [h1]
  · apply List.all_eq_true.mpr
    intro a ha
    rcases hA a ha with h1 | h1 | h1 <;> simp [h1]
  · apply List.all_eq_true.mpr
    intro s hs
    obtain ⟨a, hamem, haid, hap⟩ := hS s hs
    apply List.any_eq_true.mpr
    refine ⟨a, hamem, ?_⟩
    rcases hap with h1 | h1 | h1 <;> simp [haid, h1]

/-- A store reached by one sign-in with the google identity of the spec's
example, used to witness the reachability invariant. -/
def oneStore : Store :=
  ⟨[⟨0, "a@x.com", "A", true⟩], [⟨1, 0, "google", "g-123"⟩],
   [⟨2, 0, genToken 0, 0, 100⟩], 3, 1⟩

theorem reachable_social_only_witness :
    (oneStore.accounts.all (fun a => a.provider == "google" ||
        a.provider == "apple" || a.provider == "twitter")) = true ∧
    (oneStore.accounts.all (fun a => a.provider != "credential")) = true ∧
    (oneStore.sessions.all (fun s => oneStore.accounts.any (fun a =>
        a.userId == s.userId && (a.provider == "google" ||
          a.provider == "apple" || a.provider == "twitter")))) = true :=
  reachable_social_only ⟨false, 100⟩ oneStore
    (@Reachable.issue ⟨false, 100⟩ authConfig emptyStore oneStore 0
      ⟨"google", "g-123", "a@x.com", "A"⟩ ⟨2, 0, genToken 0, 0, 100⟩
      ⟨0, "a@x.com", "A", true⟩ Reachable.init (by decide) (by rfl))

end SaaSAuth
